import Mathlib

/-!
Verification of the `atg` genomic-annotation library core against its
natural-language specification.  The definitions below are a shallow
embedding of the Rust sources: `src/models/frame.rs`, `src/models/exon.rs`,
`src/models/transcript.rs`, `src/models/codon.rs`, `src/models/sequence.rs`,
`src/utils/fastareader.rs`, `src/utils/genomic_relations.rs`,
`src/gtf/record.rs` and `src/gtf/transcript.rs`.

Machine integers (`u32`, `u64`) are embedded as `Nat`.  Where the Rust code
can panic (arithmetic underflow/overflow under the checked semantics used by
`cargo test`, a division by zero, or an `unwrap`/`panic!`), the embedded
function returns `Option.none`; a recoverable `Result::Err` is embedded as
`Except.error`.
-/

namespace Atg

/-- Size of the `u32` value space; checked u32 arithmetic stays below it. -/
def u32size : Nat := 4294967296

/-- Rust `u32` subtraction: panics (models as `none`) on underflow. -/
def subChk (a b : Nat) : Option Nat :=
  if b ≤ a then some (a - b) else none

/-- Rust `u32` addition: panics (models as `none`) on overflow. -/
def addChk (a b : Nat) : Option Nat :=
  if a + b < u32size then some (a + b) else none

/-! ### Strand and CdsStat (src/models/utils.rs) -/

/-- Source `Strand`: one of Plus, Minus, Unknown. -/
inductive Strand
  | Plus
  | Minus
  | Unknown
deriving DecidableEq

/-- Source `CdsStat`: per-end CDS completeness status. -/
inductive CdsStat
  | None
  | Unknown
  | Incomplete
  | Complete
deriving DecidableEq

/-! ### Frame (src/models/frame.rs) -/

/-- Source `Frame`: reading-frame offset, GTF nomenclature internally. -/
inductive Frame
  | None
  | Zero
  | One
  | Two
deriving DecidableEq

/-- Total form of `Frame::from_int` (the error arm of the source match on
`s % 3` is unreachable). -/
def Frame.of_int (s : Nat) : Frame :=
  match s % 3 with
  | 0 => Frame.Zero
  | 1 => Frame.One
  | _ => Frame.Two

/-- Source `Frame::from_int`: returns the frame for `s % 3`; never fails. -/
def Frame.from_int (s : Nat) : Except String Frame :=
  Except.ok (Frame.of_int s)

/-- Source `Frame::from_str`, the GTF text convention parser. -/
def Frame.from_str (s : String) : Except String Frame :=
  if s = "-1" then Except.ok Frame.None
  else if s = "0" then Except.ok Frame.Zero
  else if s = "1" then Except.ok Frame.One
  else if s = "2" then Except.ok Frame.Two
  else if s = "." then Except.ok Frame.None
  else Except.error ("invalid frame indicator " ++ s)

/-- Source `Frame::from_gtf` delegates to `Frame::from_str`. -/
def Frame.from_gtf (s : String) : Except String Frame :=
  Frame.from_str s

/-- Source `Frame::from_refgene`: the RefGene text convention; "1" and "2" are
swapped relative to GTF. -/
def Frame.from_refgene (s : String) : Except String Frame :=
  if s = "-1" then Except.ok Frame.None
  else if s = "." then Except.ok Frame.None
  else if s = "0" then Except.ok Frame.Zero
  else if s = "1" then Except.ok Frame.Two
  else if s = "2" then Except.ok Frame.One
  else Except.error ("invalid frame indicator " ++ s)

/-- The `fmt::Display` implementation of `Frame` (also `Frame::to_gtf`). -/
def Frame.to_string : Frame → String
  | Frame.None => "."
  | Frame.Zero => "0"
  | Frame.One => "1"
  | Frame.Two => "2"

/-- Source `Frame::to_gtf` is the `Display` string. -/
def Frame.to_gtf (f : Frame) : String :=
  f.to_string

/-- Source `Frame::to_refgene`: "1" and "2" swapped, everything unknown to "-1". -/
def Frame.to_refgene : Frame → String
  | Frame.Zero => "0"
  | Frame.One => "2"
  | Frame.Two => "1"
  | Frame.None => "-1"

/-- Source `Frame::is_known`: true only for Zero, One, Two. -/
def Frame.is_known : Frame → Bool
  | Frame.Zero => true
  | Frame.One => true
  | Frame.Two => true
  | Frame.None => false

/-! ### Exon (src/models/exon.rs) -/

/-- Source `Exon`: genomic interval (1-based inclusive) with optional coding
sub-interval and a frame offset.  `end` is a Lean keyword, hence `end_`. -/
structure Exon where
  start : Nat
  end_ : Nat
  cds_start : Option Nat
  cds_end : Option Nat
  frame_offset : Frame
deriving DecidableEq

/-- Source `Exon::is_coding`: true iff `cds_start` is present. -/
def Exon.is_coding (e : Exon) : Bool :=
  e.cds_start.isSome

/-! ### Transcript (src/models/transcript.rs)

The `score: Option<f32>` field is omitted: floating-point provenance
metadata unused by every operation embedded here. -/

/-- Source `Transcript`: ordered exon collection plus identity and strand. -/
structure Transcript where
  bin : Option Nat
  name : String
  chrom : String
  strand : Strand
  cds_start_stat : CdsStat
  cds_end_stat : CdsStat
  exons : List Exon
  gene_symbol : String
deriving DecidableEq

/-- Source `Transcript::is_coding`: true iff some exon is coding. -/
def Transcript.is_coding (t : Transcript) : Bool :=
  t.exons.any Exon.is_coding

/-- Source `Transcript::cds_start`: first exon's `cds_start` that is present,
scanning in list order. -/
def Transcript.cds_start (t : Transcript) : Option Nat :=
  t.exons.findSome? Exon.cds_start

/-- Source `Transcript::cds_end`: first exon's `cds_end` that is present, scanning
in reverse list order. -/
def Transcript.cds_end (t : Transcript) : Option Nat :=
  t.exons.reverse.findSome? Exon.cds_end

/-- Source `Transcript::forward`: Unknown strand is displayed as forward. -/
def Transcript.forward (t : Transcript) : Bool :=
  match t.strand with
  | Strand.Plus => true
  | Strand.Unknown => true
  | Strand.Minus => false

/-! ### Genomic interval helpers (src/utils/genomic_relations.rs) -/

/-- Source `intersect`: overlap of two 1-based inclusive intervals, `None` when the
intervals are disjoint. -/
def intersect (a b : Nat × Nat) : Option (Nat × Nat) :=
  if a.1 ≤ b.2 ∧ b.1 ≤ a.2 then some (max a.1 b.1, min a.2 b.2) else none

/-! ### Codon and CodonFragment (src/models/codon.rs) -/

/-- Source `CodonFragment`: one exon-contained slice of a codon. -/
structure CodonFragment where
  chrom : String
  start : Nat
  end_ : Nat
  frame_offset : Frame
  strand : Strand
deriving DecidableEq

/-- Source `CodonFragment::len`: `end - start + 1` in u32; `none` models the
underflow panic when `end < start`. -/
def CodonFragment.len (f : CodonFragment) : Option Nat :=
  (subChk f.end_ f.start).bind (fun d => addChk d 1)

/-- Source `Codon`: ordered list of fragments. -/
structure Codon where
  fragments : List CodonFragment
deriving DecidableEq

/-- The u32 fold `fragments.iter().fold(0, |sum, fgt| sum + fgt.len())`. -/
def sumFragmentLen : List CodonFragment → Nat → Option Nat
  | [], acc => some acc
  | f :: fs, acc =>
    (f.len).bind (fun l => (addChk acc l).bind (fun s => sumFragmentLen fs s))

/-- Source `Codon::new`: requires the fragments to span exactly 3 bases. -/
def Codon.new (fragments : List CodonFragment) : Option (Except String Codon) :=
  (sumFragmentLen fragments 0).map (fun len =>
    if len ≠ 3 then Except.error "length != 3" else Except.ok ⟨fragments⟩)

/-- Source `Codon::sanity_check`: non-coding and outside-CDS anchors are typed
errors; the `unwrap` of a missing CDS bound is a panic (`none`). -/
def Codon.sanity_check (t : Transcript) (start : Nat) :
    Option (Except String Unit) :=
  if ¬ t.is_coding then some (Except.error "transcript is non-coding")
  else
    match t.cds_end with
    | none => none
    | some ce =>
      if start > ce then some (Except.error "start is downstream of the CDS")
      else
        match t.cds_start with
        | none => none
        | some cs =>
          if start < cs then some (Except.error "start is upstream of the CDS")
          else some (Except.ok ())

/-- The `for exon in transcript.exons()` loop of `Codon::downstream`.
`start` is the anchor; `len` counts collected bases (< 3 on entry). -/
def downstreamLoop (chrom : String) (strand : Strand) (start : Nat) :
    List Exon → Nat → List CodonFragment → Option (List CodonFragment)
  | [], _, frags => some frags
  | e :: rest, len, frags =>
    if e.is_coding then
      match e.cds_start, e.cds_end with
      | some cds_start, some cds_end =>
        (addChk (max start cds_start) (2 - len)).bind (fun hi =>
          match intersect (cds_start, cds_end) (start, hi) with
          | none => downstreamLoop chrom strand start rest len frags
          | some (s, e2) =>
            let frags := frags ++
              [⟨chrom, s, e2, Frame.of_int ((3 - len) % 3), strand⟩]
            (subChk e2 s).bind (fun d =>
              (addChk len (d + 1)).bind (fun len =>
                if len ≥ 3 then some frags
                else downstreamLoop chrom strand start rest len frags)))
      | _, _ => none
    else downstreamLoop chrom strand start rest len frags

/-- Source `Codon::downstream`: codon genomically rightward from the anchor. -/
def Codon.downstream (t : Transcript) (start : Nat) :
    Option (Except String Codon) :=
  match Codon.sanity_check t start with
  | none => none
  | some (Except.error e) => some (Except.error e)
  | some (Except.ok _) =>
    (downstreamLoop t.chrom t.strand start t.exons 0 []).bind Codon.new

/-- The `for exon in transcript.exons().iter().rev()` loop of
`Codon::upstream`.  `min(start, cds_end) - (3 - len - 1)` is u32
subtraction, so an anchor too close to position 1 underflows (`none`). -/
def upstreamLoop (chrom : String) (strand : Strand) (start : Nat) :
    List Exon → Nat → List CodonFragment → Option (List CodonFragment)
  | [], _, frags => some frags
  | e :: rest, len, frags =>
    if e.is_coding then
      match e.cds_start, e.cds_end with
      | some cds_start, some cds_end =>
        (subChk (min start cds_end) (3 - len - 1)).bind (fun lo =>
          match intersect (cds_start, cds_end) (lo, start) with
          | none => upstreamLoop chrom strand start rest len frags
          | some (s, e2) =>
            (subChk e2 s).bind (fun d =>
              (addChk len (d + 1)).bind (fun len =>
                let frags := frags ++
                  [⟨chrom, s, e2, Frame.of_int (len % 3), strand⟩]
                if len ≥ 3 then some frags
                else upstreamLoop chrom strand start rest len frags)))
      | _, _ => none
    else upstreamLoop chrom strand start rest len frags

/-- Source `Codon::upstream`: codon genomically leftward from the anchor; the
fragment list is reversed before the final length check. -/
def Codon.upstream (t : Transcript) (start : Nat) :
    Option (Except String Codon) :=
  match Codon.sanity_check t start with
  | none => none
  | some (Except.error e) => some (Except.error e)
  | some (Except.ok _) =>
    (upstreamLoop t.chrom t.strand start t.exons.reverse 0 []).bind
      (fun frags => Codon.new frags.reverse)

/-- Source `Codon::from_transcript`: strand-dispatched construction. -/
def Codon.from_transcript (t : Transcript) (start : Nat) :
    Option (Except String Codon) :=
  match t.strand with
  | Strand.Plus => Codon.downstream t start
  | Strand.Minus => Codon.upstream t start
  | Strand.Unknown => some (Except.error "transcript with unknown Strand")

/-- Source `Codon::to_tuple`: (start, end, frame offset) per fragment. -/
def Codon.to_tuple (c : Codon) : List (Nat × Nat × Frame) :=
  c.fragments.map (fun f => (f.start, f.end_, f.frame_offset))

/-- Source `Transcript::start_codon`: lenient wrapper; non-coding or unknown strand
or a failed construction all give the empty list. -/
def Transcript.start_codon (t : Transcript) :
    Option (List (Nat × Nat × Frame)) :=
  if ¬ t.is_coding then some []
  else
    match t.strand with
    | Strand.Minus =>
      match t.cds_end with
      | none => none
      | some ce =>
        match Codon.upstream t ce with
        | none => none
        | some (Except.ok c) => some c.to_tuple
        | some (Except.error _) => some []
    | Strand.Plus =>
      match t.cds_start with
      | none => none
      | some cs =>
        match Codon.downstream t cs with
        | none => none
        | some (Except.ok c) => some c.to_tuple
        | some (Except.error _) => some []
    | Strand.Unknown => some []

/-- Source `Transcript::stop_codon`: as `start_codon` with the directions swapped. -/
def Transcript.stop_codon (t : Transcript) :
    Option (List (Nat × Nat × Frame)) :=
  if ¬ t.is_coding then some []
  else
    match t.strand with
    | Strand.Minus =>
      match t.cds_start with
      | none => none
      | some cs =>
        match Codon.downstream t cs with
        | none => none
        | some (Except.ok c) => some c.to_tuple
        | some (Except.error _) => some []
    | Strand.Plus =>
      match t.cds_end with
      | none => none
      | some ce =>
        match Codon.upstream t ce with
        | none => none
        | some (Except.ok c) => some c.to_tuple
        | some (Except.error _) => some []
    | Strand.Unknown => some []

/-! ### Coordinate views (src/models/transcript.rs) -/

/-- Contribution of one exon to `Transcript::utr_coordinates`; `none`
models the `unwrap` panic on a coding exon missing `cds_end`. -/
def utrPiece (chrom : String) (e : Exon) :
    Option (List (String × Nat × Nat)) :=
  if e.is_coding then
    match e.cds_start, e.cds_end with
    | some cds_start, some cds_end =>
      some ((if cds_start > e.start then [(chrom, e.start, cds_start - 1)] else []) ++
        (if cds_end < e.end_ then [(chrom, cds_end + 1, e.end_)] else []))
    | _, _ => none
  else some [(chrom, e.start, e.end_)]

/-- The exon loop of `Transcript::utr_coordinates`, pushing each exon's
pieces in order. -/
def utrCoordsList (chrom : String) :
    List Exon → Option (List (String × Nat × Nat))
  | [] => some []
  | e :: rest =>
    (utrPiece chrom e).bind (fun p =>
      (utrCoordsList chrom rest).map (fun l => p ++ l))

/-- Source `Transcript::utr_coordinates`: non-coding flanks of partially coding
exons plus fully non-coding exons. -/
def Transcript.utr_coordinates (t : Transcript) :
    Option (List (String × Nat × Nat)) :=
  utrCoordsList t.chrom t.exons

/-- Source `Transcript::utr5_coordinates`: `utr_coordinates` filtered to the 5'
side of the CDS (strand-aware); unchanged for non-coding transcripts. -/
def Transcript.utr5_coordinates (t : Transcript) :
    Option (List (String × Nat × Nat)) :=
  (t.utr_coordinates).bind (fun utr =>
    if t.is_coding then
      if t.forward then
        match t.cds_start with
        | none => none
        | some s => some (utr.filter (fun c => c.2.2 < s))
      else
        match t.cds_end with
        | none => none
        | some e => some (utr.filter (fun c => e < c.2.1))
    else some utr)

/-- Source `Transcript::utr3_coordinates`: `utr_coordinates` filtered to the 3'
side of the CDS (strand-aware); empty for non-coding transcripts. -/
def Transcript.utr3_coordinates (t : Transcript) :
    Option (List (String × Nat × Nat)) :=
  (t.utr_coordinates).bind (fun utr =>
    if t.is_coding then
      if t.forward then
        match t.cds_end with
        | none => none
        | some e => some (utr.filter (fun c => e < c.2.1))
      else
        match t.cds_start with
        | none => none
        | some s => some (utr.filter (fun c => c.2.2 < s))
    else some [])

/-! ### Nucleotide and Sequence (src/models/sequence.rs) -/

/-- Source `Nucleotide`: a single DNA base. -/
inductive Nucleotide
  | A
  | C
  | G
  | T
  | N
deriving DecidableEq

/-- The UTF-8 byte constants exactly as written in the source.  Note that
the source sets `LOWERCASE_N` to `0x64`, the code point of the letter d. -/
def UPPERCASE_A : Nat := 0x41
def UPPERCASE_C : Nat := 0x43
def UPPERCASE_G : Nat := 0x47
def UPPERCASE_T : Nat := 0x54
def UPPERCASE_N : Nat := 0x4e
def LOWERCASE_A : Nat := 0x61
def LOWERCASE_C : Nat := 0x63
def LOWERCASE_G : Nat := 0x67
def LOWERCASE_T : Nat := 0x74
def LOWERCASE_N : Nat := 0x64
def LF : Nat := 0xa
def CR : Nat := 0xd

/-- Source `TryFrom<&u8> for Nucleotide`: `Except.error` is the recoverable
"newline" arm, while `none` models the source's `panic!` arm for every
other byte. -/
def Nucleotide.try_from_u8 (b : Nat) : Option (Except String Nucleotide) :=
  if b = LOWERCASE_A ∨ b = UPPERCASE_A then some (Except.ok Nucleotide.A)
  else if b = LOWERCASE_C ∨ b = UPPERCASE_C then some (Except.ok Nucleotide.C)
  else if b = LOWERCASE_G ∨ b = UPPERCASE_G then some (Except.ok Nucleotide.G)
  else if b = LOWERCASE_T ∨ b = UPPERCASE_T then some (Except.ok Nucleotide.T)
  else if b = LOWERCASE_N ∨ b = UPPERCASE_N then some (Except.ok Nucleotide.N)
  else if b = LF ∨ b = CR then some (Except.error "newline")
  else none

/-- Source `Sequence::from_raw_bytes`: `if let Ok(n) = try_from(b)` pushes decoded
bytes and silently skips the "newline" error; the `panic!` for any other
byte propagates (`none`).  `len` only sizes the initial allocation, so it
is an unused parameter here. -/
def Sequence.from_raw_bytes (bytes : List Nat) (len : Nat) :
    Option (List Nucleotide) :=
  match bytes with
  | [] => some []
  | b :: rest =>
    match Nucleotide.try_from_u8 b with
    | none => none
    | some (Except.ok n) =>
      (Sequence.from_raw_bytes rest len).map (fun s => n :: s)
    | some (Except.error _) => Sequence.from_raw_bytes rest len

/-! ### Fasta index (src/utils/fastareader.rs) -/

/-- One line of the fai file: contig name, total bases, byte offset of the
first base, bases per line, bytes per line. -/
structure ChromosomeIndex where
  name : String
  bases : Nat
  start : Nat
  line_bases : Nat
  line_bytes : Nat
deriving DecidableEq

/-- Source `ChromosomeIndex::offset`.  The source contains
`if pos > self.bases { FastaError::new(...); }`, which constructs the
out-of-range error but never returns it, so that branch has no effect and
the function is always `Ok`; the embedding keeps that behaviour. -/
def ChromosomeIndex.offset (c : ChromosomeIndex) (pos : Nat) :
    Except String Nat :=
  let line_offset := (pos - 1) % c.line_bases
  let line_start := (pos - 1) / c.line_bases * c.line_bytes
  Except.ok (c.start + line_start + line_offset)

/-- Source `FastaIndex`: contig name to index entry.  The Rust `HashMap` is built
by insertion where a duplicate name overwrites, so lookup takes the last
entry with the name. -/
structure FastaIndex where
  chromosomes : List ChromosomeIndex
deriving DecidableEq

/-- Source `HashMap::get` on the insertion-built map: last duplicate wins. -/
def FastaIndex.get (idx : FastaIndex) (chrom : String) :
    Option ChromosomeIndex :=
  idx.chromosomes.reverse.find? (fun c => c.name = chrom)

/-- Source `FastaIndex::offset`: unknown contigs are a typed error. -/
def FastaIndex.offset (idx : FastaIndex) (chrom : String) (pos : Nat) :
    Except String Nat :=
  match idx.get chrom with
  | some c => c.offset pos
  | none => Except.error ("index for " ++ chrom ++ " does not exist")

/-- Source `FastaIndex::offset_range`: byte offsets of `start` and of `end + 1`. -/
def FastaIndex.offset_range (idx : FastaIndex) (chrom : String)
    (start end_ : Nat) : Except String (Nat × Nat) :=
  (idx.offset chrom start).bind (fun offset_start =>
    (idx.offset chrom (end_ + 1)).map (fun offset_end =>
      (offset_start, offset_end)))

/-! ### GTF records and the fragment grouper
(src/gtf/record.rs, src/gtf/transcript.rs) -/

/-- Source `GtfFeature`: the feature kind of one GTF line. -/
inductive GtfFeature
  | Exon
  | CDS
  | StartCodon
  | StopCodon
  | UTR
  | UTR5
  | UTR3
  | Inter
  | InterCNS
  | IntronCNS
  | Gene
  | Transcript
  | Selenocysteine
deriving DecidableEq

/-- Source `GtfRecord`: one GTF line.  The `source`, `score: Option<f32>` and
`exon_number` fields are omitted: they never influence the grouping. -/
structure GtfRecord where
  chrom : String
  feature : GtfFeature
  start : Nat
  end_ : Nat
  strand : Strand
  frame_offset : Frame
  gene : String
  transcript : String
deriving DecidableEq

/-- Source `From<GtfRecord> for Exon`: CDS and codon records seed the coding
bounds, UTR records clear the frame. -/
def GtfRecord.to_exon (r : GtfRecord) : Exon :=
  let exon : Exon := ⟨r.start, r.end_, none, none, r.frame_offset⟩
  match r.feature with
  | GtfFeature.CDS => { exon with cds_start := some r.start, cds_end := some r.end_ }
  | GtfFeature.UTR => { exon with frame_offset := Frame.None }
  | GtfFeature.UTR3 => { exon with frame_offset := Frame.None }
  | GtfFeature.UTR5 => { exon with frame_offset := Frame.None }
  | GtfFeature.StopCodon => { exon with cds_start := some r.start, cds_end := some r.end_ }
  | GtfFeature.StartCodon => { exon with cds_start := some r.start, cds_end := some r.end_ }
  | _ => exon

/-- Source `GtfRecord::add_to_exon`: widen `[start, end]` to the union, then merge
the coding information depending on the feature kind, then inherit the
record's frame when the exon is coding without a known frame. -/
def GtfRecord.add_to_exon (r : GtfRecord) (e : Exon) : Exon :=
  let exon := { e with start := min e.start r.start, end_ := max e.end_ r.end_ }
  let exon :=
    match r.feature with
    | GtfFeature.CDS =>
      { exon with
        cds_start := some (min (exon.cds_start.getD r.start) r.start)
        cds_end := some (max (exon.cds_end.getD r.end_) r.end_)
        frame_offset := r.frame_offset }
    | GtfFeature.StopCodon =>
      match r.strand with
      | Strand.Plus =>
        { exon with
          cds_start := some (min r.start (exon.cds_start.getD r.start))
          cds_end := some r.end_ }
      | Strand.Minus =>
        { exon with
          cds_start := some r.start
          cds_end := some (max r.end_ (exon.cds_end.getD r.end_)) }
      | Strand.Unknown => exon
    | GtfFeature.StartCodon =>
      match r.strand with
      | Strand.Plus =>
        { exon with
          cds_start := some r.start
          cds_end := some (max r.end_ (exon.cds_end.getD r.end_)) }
      | Strand.Minus =>
        { exon with
          cds_start := some (min r.start (exon.cds_start.getD r.start))
          cds_end := some r.end_ }
      | Strand.Unknown => exon
    | _ => exon
  if exon.is_coding ∧ ¬ exon.frame_offset.is_known then
    { exon with frame_offset := r.frame_offset }
  else exon

/-- Insertion of one record into a list sorted ascending by `start`.
`sort_unstable_by_key` leaves the order of equal keys unspecified; this
embedding fixes one such order. -/
def insertByStart (r : GtfRecord) : List GtfRecord → List GtfRecord
  | [] => [r]
  | x :: xs =>
    if r.start ≤ x.start then r :: x :: xs else x :: insertByStart r xs

/-- The ascending-by-start sort performed by `GtfRecordsGroup::prepare`
(the source sorts, reverses, and pops from the back, which visits the
records in ascending `start` order). -/
def sortByStart (rs : List GtfRecord) : List GtfRecord :=
  rs.foldr insertByStart []

/-- The merged loop of `GtfRecordsGroup::next_exon` inside
`GtfRecordsGroup::exons`: keep absorbing the following record while its
start is `<= exon.end() + 1` (u32 addition, checked), else close the
accumulator and start the next exon from the record.  `none` models the
overflow panic of `exon.end() + 1`. -/
def mergeLoop : Exon → List GtfRecord → Option (List Exon)
  | acc, [] => some [acc]
  | acc, r :: rest =>
    (addChk acc.end_ 1).bind (fun b =>
      if r.start ≤ b then mergeLoop (r.add_to_exon acc) rest
      else (mergeLoop r.to_exon rest).map (fun es => acc :: es))

/-- Source `GtfRecordsGroup::exons`: sort the records, then emit one merged
`Exon` per run of overlapping or book-ended records. -/
def GtfRecordsGroup.exons (rs : List GtfRecord) : Option (List Exon) :=
  match sortByStart rs with
  | [] => some []
  | r :: rest => mergeLoop r.to_exon rest

/-- Modelled from the spec: the grouper description of section 4.4 in its
own words, over bare intervals sorted ascending by start - merge the
following interval while its start is at most the accumulator's end plus
one, widening `[start, end]` to the union; each maximal chain yields one
interval. -/
def specMergeChains : (Nat × Nat) → List (Nat × Nat) → List (Nat × Nat)
  | acc, [] => [acc]
  | acc, (s, e) :: rest =>
    if s ≤ acc.2 + 1 then specMergeChains (min acc.1 s, max acc.2 e) rest
    else acc :: specMergeChains (s, e) rest

/-- Modelled from the spec: group a sorted interval list into maximal
overlapping-or-book-ended chains. -/
def specGroupIntervals : List (Nat × Nat) → List (Nat × Nat)
  | [] => []
  | iv :: rest => specMergeChains iv rest

/-! ### Concrete fixtures -/

/-- The 5-exon test transcript of `tests::transcripts::standard_transcript`:
exon 2 carries `cds_start = 24`, and the CDS continues in exon 3 `(31, 35)`. -/
def stdTranscript : Transcript :=
  { bin := none
    name := "Test-Transcript"
    chrom := "chr1"
    strand := Strand.Plus
    cds_start_stat := CdsStat.None
    cds_end_stat := CdsStat.None
    gene_symbol := "Test-Gene"
    exons :=
      [⟨11, 15, none, none, Frame.None⟩,
       ⟨21, 25, some 24, some 25, Frame.Zero⟩,
       ⟨31, 35, some 31, some 35, Frame.One⟩,
       ⟨41, 45, some 41, some 44, Frame.Two⟩,
       ⟨51, 55, none, none, Frame.None⟩] }

/-- A coding transcript whose CDS sits at the very start of the contig:
anchor 1 is inside the CDS, yet the upstream codon would extend below
position 1. -/
def edgeTranscript : Transcript :=
  { bin := none
    name := "Edge-Transcript"
    chrom := "chr1"
    strand := Strand.Plus
    cds_start_stat := CdsStat.None
    cds_end_stat := CdsStat.None
    gene_symbol := "Edge-Gene"
    exons := [⟨1, 3, some 1, some 3, Frame.Zero⟩] }

/-- The fai entry of the `chr1` scenario:
`bases = 201`, `start = 6`, `line_bases = 50`, `line_bytes = 51`. -/
def chr1Entry : ChromosomeIndex :=
  ⟨"chr1", 201, 6, 50, 51⟩

/-- A one-contig index holding `chr1Entry`. -/
def testIndex : FastaIndex :=
  ⟨[chr1Entry]⟩

/-- The two book-ended exon fragments of the grouper scenario. -/
def rec1020 : GtfRecord :=
  ⟨"chr1", GtfFeature.Exon, 10, 20, Strand.Plus, Frame.None, "G", "T1"⟩

def rec2130 : GtfRecord :=
  ⟨"chr1", GtfFeature.Exon, 21, 30, Strand.Plus, Frame.None, "G", "T1"⟩

/-! ### Claim theorems -/

/-- Claim C1: the spec says `offset(contig, pos)` fails for
`pos > contig.bases`, but the source builds that `FastaError` without
returning it, so for the `chr1` entry with 201 bases the out-of-range
position 202 still yields a byte offset, `Ok 211`.  The second half of the
claim does hold: a contig name absent from the index is a typed error. -/
theorem c1_offset_past_end_returns_ok :
    chr1Entry.offset 202 = Except.ok 211 ∧
    testIndex.offset "chr2" 5 =
      Except.error "index for chr2 does not exist" := by
  exact ⟨rfl, rfl⟩

/-- Claim C2 (counterexample): building the start codon of the standard
Plus-strand transcript at anchor 24 yields the fragments
`[(24,25,Zero), (31,31,One)]`, and the claimed value
`[(24,25,Zero), (31,31,Two)]` differs from it: the second fragment's frame
is One, not Two (the source's own `test_start_codon::case_4` asserts
`Frame::One` as well). -/
theorem c2_start_codon_frame_counterexample :
    (Codon.downstream stdTranscript 24).map (Except.map Codon.to_tuple) =
      some (Except.ok [(24, 25, Frame.Zero), (31, 31, Frame.One)]) ∧
    [(24, 25, Frame.Zero), (31, 31, Frame.One)] ≠
      [(24, 25, Frame.Zero), (31, 31, Frame.Two)] := by
  exact ⟨rfl, by decide⟩

/-- Claim C2 (amended): at anchor 24 the downstream codon of the standard
transcript consists of exactly the fragments `(24,25)` with frame Zero and
`(31,31)` with frame One, of lengths 2 and 1. -/
theorem c2_start_codon_fragments_amended :
    Codon.downstream stdTranscript 24 =
      some (Except.ok ⟨[⟨"chr1", 24, 25, Frame.Zero, Strand.Plus⟩,
                        ⟨"chr1", 31, 31, Frame.One, Strand.Plus⟩]⟩) ∧
    CodonFragment.len ⟨"chr1", 24, 25, Frame.Zero, Strand.Plus⟩ = some 2 ∧
    CodonFragment.len ⟨"chr1", 31, 31, Frame.One, Strand.Plus⟩ = some 1 := by
  exact ⟨rfl, rfl, rfl⟩

/-- Claim C3: codon construction is claimed never to crash, yet
`Codon::upstream` computes `min(start, cds_end) - (3 - len - 1)` in u32,
which underflows for the in-CDS anchor 1 of a transcript whose CDS starts
at position 1: the sanity check passes (`Ok`), and the construction then
panics instead of returning a typed error. -/
theorem c3_upstream_underflow_panics :
    Codon.sanity_check edgeTranscript 1 = some (Except.ok ()) ∧
    Codon.upstream edgeTranscript 1 = none := by
  exact ⟨rfl, rfl⟩

/-- Claim C4: the raw-byte constructor does strip LF and CR (the scenario
`"A\nC\r\nGT"` gives `ACGT`), but the decoding is not the claimed
case-insensitive `{A,C,G,T,N}` map with a recoverable error elsewhere: the
source's `LOWERCASE_N` constant is `0x64` (the letter d), so the byte `n`
(0x6e) falls into the `panic!` arm (as does every other unexpected byte)
while the byte `d` decodes to N. -/
theorem c4_from_raw_bytes_eval :
    Sequence.from_raw_bytes [0x41, 0xa, 0x43, 0xd, 0xa, 0x47, 0x54] 2 =
      some [Nucleotide.A, Nucleotide.C, Nucleotide.G, Nucleotide.T] ∧
    Sequence.from_raw_bytes [0x6e] 1 = none ∧
    Sequence.from_raw_bytes [0x64] 1 = some [Nucleotide.N] := by
  exact ⟨rfl, rfl, rfl⟩

/-- Claim C9: the two Frame text encodings convert both ways without loss:
parsing `to_refgene f` with the RefGene parser and `to_gtf f` with the GTF
parser returns `f` for all four Frame values, and the RefGene parser maps
the token "1" to Two and the token "2" to One. -/
theorem c9_frame_encoding_roundtrip :
    (Frame.from_refgene (Frame.to_refgene Frame.None) = Except.ok Frame.None ∧
     Frame.from_refgene (Frame.to_refgene Frame.Zero) = Except.ok Frame.Zero ∧
     Frame.from_refgene (Frame.to_refgene Frame.One) = Except.ok Frame.One ∧
     Frame.from_refgene (Frame.to_refgene Frame.Two) = Except.ok Frame.Two) ∧
    (Frame.from_gtf (Frame.to_gtf Frame.None) = Except.ok Frame.None ∧
     Frame.from_gtf (Frame.to_gtf Frame.Zero) = Except.ok Frame.Zero ∧
     Frame.from_gtf (Frame.to_gtf Frame.One) = Except.ok Frame.One ∧
     Frame.from_gtf (Frame.to_gtf Frame.Two) = Except.ok Frame.Two) ∧
    Frame.from_refgene "1" = Except.ok Frame.Two ∧
    Frame.from_refgene "2" = Except.ok Frame.One := by
  exact ⟨⟨rfl, rfl, rfl, rfl⟩, ⟨rfl, rfl, rfl, rfl⟩, rfl, rfl⟩

/-- Claim C6: within the contig (`1 <= pos <= bases`, and a sane
`line_bases > 0` so the line division is defined) the byte offset is
`start + floor((pos-1)/line_bases)*line_bytes + (pos-1) mod line_bases`;
for the chr1 entry this gives `offset(150) = 157` and `offset(151) = 159`. -/
theorem c6_offset_formula (c : ChromosomeIndex) (pos : Nat)
    (_h1 : 1 ≤ pos) (_h2 : pos ≤ c.bases) (_h3 : 0 < c.line_bases) :
    c.offset pos =
      Except.ok (c.start + (pos - 1) / c.line_bases * c.line_bytes +
        (pos - 1) % c.line_bases) ∧
    chr1Entry.offset 150 = Except.ok 157 ∧
    chr1Entry.offset 151 = Except.ok 159 := by
  exact ⟨rfl, rfl, rfl⟩

/-- Witness for C6 at the chr1 entry and position 150. -/
theorem c6_offset_formula_witness :
    chr1Entry.offset 150 =
      Except.ok (chr1Entry.start +
        (150 - 1) / chr1Entry.line_bases * chr1Entry.line_bytes +
        (150 - 1) % chr1Entry.line_bases) ∧
    chr1Entry.offset 150 = Except.ok 157 ∧
    chr1Entry.offset 151 = Except.ok 159 :=
  c6_offset_formula chr1Entry 150 (by decide) (by decide) (by decide)

/-- Claim C5 (counterexample): for the chr1 entry (50 bases per line, 51
bytes per line) the range `[1, 50]` ends on the last base of a line:
`offset_range` returns `(6, 57)` while `offset(50) + 1 = 56`, so the second
component is not `offset(end) + 1`. -/
theorem c5_offset_range_counterexample :
    testIndex.offset_range "chr1" 1 50 = Except.ok (6, 57) ∧
    testIndex.offset "chr1" 50 = Except.ok 55 ∧
    (57 : Nat) ≠ 55 + 1 := by
  exact ⟨rfl, rfl, by decide⟩

/-- The byte offset of position `e + 1` equals the byte offset of `e` plus
one, plus the extra line-terminator bytes when `e` is the last base of a
line. -/
theorem offset_succ_arith (st lb ly e : Nat) (he : 1 ≤ e)
    (hlb : 0 < lb) (hbb : lb ≤ ly) :
    st + (e + 1 - 1) / lb * ly + (e + 1 - 1) % lb =
      st + (e - 1) / lb * ly + (e - 1) % lb + 1 +
        (if e % lb = 0 then ly - lb else 0) := by
  obtain ⟨f, rfl⟩ : ∃ f, e = f + 1 := ⟨e - 1, by omega⟩
  simp only [Nat.add_sub_cancel]
  have hqr := Nat.div_add_mod f lb
  set q := f / lb with hq
  set r := f % lb with hr
  have hrlt : r < lb := Nat.mod_lt f hlb
  by_cases hcase : r + 1 = lb
  · have hmul : lb * (q + 1) = lb * q + lb := by ring
    have hf1 : f + 1 = lb * (q + 1) := by omega
    have hdiv : (f + 1) / lb = q + 1 := by
      rw [hf1, Nat.mul_div_cancel_left _ hlb]
    have hmod : (f + 1) % lb = 0 := by
      rw [hf1, Nat.mul_mod_right]
    rw [hdiv, hmod, if_pos rfl]
    have hsm : (q + 1) * ly = q * ly + ly := by ring
    omega
  · have hrlt2 : r + 1 < lb := by omega
    have hf1 : f + 1 = r + 1 + lb * q := by omega
    have hdiv : (f + 1) / lb = q := by
      rw [hf1, Nat.add_mul_div_left _ _ hlb, Nat.div_eq_of_lt hrlt2,
        Nat.zero_add]
    have hmod : (f + 1) % lb = r + 1 := by
      rw [hf1, Nat.add_mul_mod_self_left, Nat.mod_eq_of_lt hrlt2]
    rw [hdiv, hmod, if_neg (by omega)]
    omega

/-- Claim C5 (amended): for 1-based positions (`start = 0` or `end = 0`
would make the source's u64 `pos - 1` panic), `offset_range(contig, start,
end)` returns `(offset(start), offset(end + 1))`; the second component
equals `offset(end) + 1` plus, exactly when `end` is the last base of a
line (`end mod line_bases = 0`), the `line_bytes - line_bases` terminator
bytes of that line. -/
theorem c5_offset_range_amended (idx : FastaIndex) (chrom : String)
    (s e : Nat) (c : ChromosomeIndex)
    (hc : idx.get chrom = some c) (_hs : 1 ≤ s) (he : 1 ≤ e)
    (hlb : 0 < c.line_bases) (hbb : c.line_bases ≤ c.line_bytes) :
    ∃ a b, idx.offset chrom s = Except.ok a ∧
      idx.offset chrom e = Except.ok b ∧
      idx.offset_range chrom s e =
        Except.ok (a, b + 1 +
          (if e % c.line_bases = 0 then c.line_bytes - c.line_bases else 0)) := by
  have hoff : ∀ p, idx.offset chrom p =
      Except.ok (c.start + (p - 1) / c.line_bases * c.line_bytes +
        (p - 1) % c.line_bases) := by
    intro p
    rw [FastaIndex.offset, hc]
    rfl
  refine ⟨_, _, hoff s, hoff e, ?_⟩
  have hrange : idx.offset_range chrom s e = Except.ok
      (c.start + (s - 1) / c.line_bases * c.line_bytes +
        (s - 1) % c.line_bases,
       c.start + (e + 1 - 1) / c.line_bases * c.line_bytes +
        (e + 1 - 1) % c.line_bases) := by
    unfold FastaIndex.offset_range
    rw [hoff s, hoff (e + 1)]
    rfl
  rw [hrange,
    offset_succ_arith c.start c.line_bases c.line_bytes e he hlb hbb]

/-- Witness for the amended C5 at the chr1 entry and range [1, 50]. -/
theorem c5_offset_range_amended_witness :
    ∃ a b, testIndex.offset "chr1" 1 = Except.ok a ∧
      testIndex.offset "chr1" 50 = Except.ok b ∧
      testIndex.offset_range "chr1" 1 50 =
        Except.ok (a, b + 1 +
          (if 50 % chr1Entry.line_bases = 0 then
            chr1Entry.line_bytes - chr1Entry.line_bases else 0)) :=
  c5_offset_range_amended testIndex "chr1" 1 50 chr1Entry rfl
    (by decide) (by decide) (by decide) (by decide)

/-- A transcript with two exons, none of them coding. -/
def ncTranscript : Transcript :=
  { bin := none
    name := "NC-Transcript"
    chrom := "chr2"
    strand := Strand.Plus
    cds_start_stat := CdsStat.None
    cds_end_stat := CdsStat.None
    gene_symbol := "NC-Gene"
    exons := [⟨11, 15, none, none, Frame.None⟩,
              ⟨51, 55, none, none, Frame.None⟩] }

/-- A coding transcript whose CDS spans only two bases, so any codon that
is built from it is truncated. -/
def shortTranscript : Transcript :=
  { bin := none
    name := "Short-Transcript"
    chrom := "chr3"
    strand := Strand.Plus
    cds_start_stat := CdsStat.None
    cds_end_stat := CdsStat.None
    gene_symbol := "Short-Gene"
    exons := [⟨1, 5, some 4, some 5, Frame.Zero⟩] }

/-- The Minus-strand twin of `shortTranscript`. -/
def shortMinusTranscript : Transcript :=
  { shortTranscript with name := "Short-Minus", strand := Strand.Minus }

/-- A coding transcript whose strand is unknown. -/
def unkTranscript : Transcript :=
  { shortTranscript with name := "Unknown-Strand", strand := Strand.Unknown }

/-- On exons that are all non-coding, every `utrPiece` is the full exon
interval. -/
theorem utrCoordsList_noncoding (chrom : String) (l : List Exon)
    (h : ∀ e ∈ l, e.is_coding = false) :
    utrCoordsList chrom l =
      some (l.map (fun e => (chrom, e.start, e.end_))) := by
  induction l with
  | nil => rfl
  | cons e rest ih =>
    have he : e.is_coding = false := h e (by simp)
    have hrest := ih (fun x hx => h x (by simp [hx]))
    simp [utrCoordsList, utrPiece, he, hrest]

/-- Claim C10: on a transcript with no coding exon, `utr3_coordinates` is
empty while `utr5_coordinates` equals `utr_coordinates`, which lists every
exon's full interval - the two filtered UTR views are asymmetric on
non-coding transcripts. -/
theorem c10_noncoding_utr_views (t : Transcript)
    (h : ∀ e ∈ t.exons, e.is_coding = false) :
    t.utr3_coordinates = some [] ∧
    t.utr5_coordinates = t.utr_coordinates ∧
    t.utr_coordinates =
      some (t.exons.map (fun e => (t.chrom, e.start, e.end_))) := by
  have hnc : t.is_coding = false := by
    simp only [Transcript.is_coding, List.any_eq_false]
    intro e he
    simp [h e he]
  have hutr : t.utr_coordinates =
      some (t.exons.map (fun e => (t.chrom, e.start, e.end_))) := by
    rw [Transcript.utr_coordinates, utrCoordsList_noncoding t.chrom t.exons h]
  have hutr5 : t.utr5_coordinates =
      some (t.exons.map (fun e => (t.chrom, e.start, e.end_))) := by
    rw [Transcript.utr5_coordinates, hutr]
    simp [hnc]
  have hutr3 : t.utr3_coordinates = some [] := by
    rw [Transcript.utr3_coordinates, hutr]
    simp [hnc]
  exact ⟨hutr3, by rw [hutr5, hutr], hutr⟩

/-- Witness for C10 on the concrete two-exon non-coding transcript. -/
theorem c10_noncoding_utr_views_witness :
    ncTranscript.utr3_coordinates = some [] ∧
    ncTranscript.utr5_coordinates = ncTranscript.utr_coordinates ∧
    ncTranscript.utr_coordinates =
      some (ncTranscript.exons.map
        (fun e => (ncTranscript.chrom, e.start, e.end_))) :=
  c10_noncoding_utr_views ncTranscript (by decide)

/-- A list whose `findSome?` over `cds_start` succeeds has a coding
member. -/
theorem any_coding_of_findSome (l : List Exon) (cs : Nat)
    (h : l.findSome? Exon.cds_start = some cs) :
    l.any Exon.is_coding = true := by
  induction l with
  | nil => simp [List.findSome?] at h
  | cons e rest ih =>
    rw [List.findSome?_cons] at h
    cases hcs : e.cds_start with
    | some v => simp [List.any_cons, Exon.is_coding, hcs]
    | none =>
      rw [hcs] at h
      simp only [List.any_cons, Bool.or_eq_true]
      exact Or.inr (ih h)

/-- A transcript with a present `cds_start` is coding. -/
theorem is_coding_of_cds_start (t : Transcript) (cs : Nat)
    (h : t.cds_start = some cs) : t.is_coding = true :=
  any_coding_of_findSome t.exons cs h

/-- A sanity-check error short-circuits `Codon::downstream`. -/
theorem downstream_of_sanity_error (t : Transcript) (p : Nat) (m : String)
    (h : Codon.sanity_check t p = some (Except.error m)) :
    Codon.downstream t p = some (Except.error m) := by
  unfold Codon.downstream
  rw [h]

/-- A sanity-check error short-circuits `Codon::upstream`. -/
theorem upstream_of_sanity_error (t : Transcript) (p : Nat) (m : String)
    (h : Codon.sanity_check t p = some (Except.error m)) :
    Codon.upstream t p = some (Except.error m) := by
  unfold Codon.upstream
  rw [h]

/-- An anchor outside `[cds_start, cds_end]` fails the sanity check with
one of the two outside-CDS messages. -/
theorem sanity_check_outside_cds (t : Transcript) (p cs ce : Nat)
    (hcs : t.cds_start = some cs) (hce : t.cds_end = some ce)
    (hp : p < cs ∨ ce < p) :
    ∃ m, Codon.sanity_check t p = some (Except.error m) := by
  have hic : t.is_coding = true := is_coding_of_cds_start t cs hcs
  unfold Codon.sanity_check
  rw [hce, hcs]
  by_cases hpce : ce < p
  · exact ⟨"start is downstream of the CDS", by simp [hic, hpce]⟩
  · have hpcs : p < cs := by
      rcases hp with h1 | h1
      · exact h1
      · omega
    exact ⟨"start is upstream of the CDS", by simp [hic, hpce, hpcs]⟩

/-- Claim C8: codon construction fails with a typed outside-CDS error for
anchors outside `[cds_start, cds_end]`, fails for non-coding transcripts
and (via `from_transcript`) for an unknown strand, while
`Transcript::start_codon` / `stop_codon` swallow every construction error:
non-coding transcripts, unknown strand, and any failing construction all
give the empty list. -/
theorem c8_codon_error_handling :
    (∀ (t : Transcript) (p cs ce : Nat), t.cds_start = some cs →
      t.cds_end = some ce → (p < cs ∨ ce < p) →
      (∃ m, Codon.downstream t p = some (Except.error m)) ∧
      (∃ m, Codon.upstream t p = some (Except.error m))) ∧
    (∀ (t : Transcript) (p : Nat), t.is_coding = false →
      Codon.downstream t p =
        some (Except.error "transcript is non-coding") ∧
      Codon.upstream t p =
        some (Except.error "transcript is non-coding")) ∧
    (∀ (t : Transcript) (p : Nat), t.strand = Strand.Unknown →
      Codon.from_transcript t p =
        some (Except.error "transcript with unknown Strand")) ∧
    (∀ t : Transcript, t.is_coding = false →
      t.start_codon = some [] ∧ t.stop_codon = some []) ∧
    (∀ (t : Transcript) (cs : Nat) (m : String), t.strand = Strand.Plus →
      t.cds_start = some cs →
      Codon.downstream t cs = some (Except.error m) →
      t.start_codon = some []) ∧
    (∀ (t : Transcript) (ce : Nat) (m : String), t.strand = Strand.Minus →
      t.cds_end = some ce →
      Codon.upstream t ce = some (Except.error m) →
      t.start_codon = some []) ∧
    (∀ (t : Transcript) (ce : Nat) (m : String), t.strand = Strand.Plus →
      t.cds_end = some ce →
      Codon.upstream t ce = some (Except.error m) →
      t.stop_codon = some []) ∧
    (∀ (t : Transcript) (cs : Nat) (m : String), t.strand = Strand.Minus →
      t.cds_start = some cs →
      Codon.downstream t cs = some (Except.error m) →
      t.stop_codon = some []) ∧
    (∀ t : Transcript, t.strand = Strand.Unknown →
      t.start_codon = some [] ∧ t.stop_codon = some []) := by
  refine ⟨?_, ?_, ?_, ?_, ?_, ?_, ?_, ?_, ?_⟩
  · intro t p cs ce hcs hce hp
    obtain ⟨m, hm⟩ := sanity_check_outside_cds t p cs ce hcs hce hp
    exact ⟨⟨m, downstream_of_sanity_error t p m hm⟩,
      ⟨m, upstream_of_sanity_error t p m hm⟩⟩
  · intro t p h
    have hm : Codon.sanity_check t p =
        some (Except.error "transcript is non-coding") := by
      unfold Codon.sanity_check
      simp [h]
    exact ⟨downstream_of_sanity_error t p _ hm,
      upstream_of_sanity_error t p _ hm⟩
  · intro t p h
    unfold Codon.from_transcript
    rw [h]
  · intro t h
    constructor
    · unfold Transcript.start_codon
      simp [h]
    · unfold Transcript.stop_codon
      simp [h]
  · intro t cs m hstrand hcs hdown
    have hic := is_coding_of_cds_start t cs hcs
    unfold Transcript.start_codon
    simp [hic, hstrand, hcs, hdown]
  · intro t ce m hstrand hce hup
    unfold Transcript.start_codon
    by_cases hic : t.is_coding
    · simp [hic, hstrand, hce, hup]
    · simp [hic]
  · intro t ce m hstrand hce hup
    unfold Transcript.stop_codon
    by_cases hic : t.is_coding
    · simp [hic, hstrand, hce, hup]
    · simp [hic]
  · intro t cs m hstrand hcs hdown
    have hic := is_coding_of_cds_start t cs hcs
    unfold Transcript.stop_codon
    simp [hic, hstrand, hcs, hdown]
  · intro t h
    constructor
    · unfold Transcript.start_codon
      by_cases hic : t.is_coding
      · simp [hic, h]
      · simp [hic]
    · unfold Transcript.stop_codon
      by_cases hic : t.is_coding
      · simp [hic, h]
      · simp [hic]

/-- Witness for C8: every hypothesis-bearing conjunct instantiated on a
concrete transcript. -/
theorem c8_codon_error_handling_witness :
    ((∃ m, Codon.downstream stdTranscript 50 = some (Except.error m)) ∧
     (∃ m, Codon.upstream stdTranscript 50 = some (Except.error m))) ∧
    (Codon.downstream ncTranscript 1 =
       some (Except.error "transcript is non-coding") ∧
     Codon.upstream ncTranscript 1 =
       some (Except.error "transcript is non-coding")) ∧
    Codon.from_transcript unkTranscript 1 =
      some (Except.error "transcript with unknown Strand") ∧
    (ncTranscript.start_codon = some [] ∧ ncTranscript.stop_codon = some []) ∧
    shortTranscript.start_codon = some [] ∧
    shortMinusTranscript.start_codon = some [] ∧
    shortTranscript.stop_codon = some [] ∧
    shortMinusTranscript.stop_codon = some [] ∧
    (unkTranscript.start_codon = some [] ∧
     unkTranscript.stop_codon = some []) := by
  refine ⟨?_, ?_, ?_, ?_, ?_, ?_, ?_, ?_, ?_⟩
  · exact c8_codon_error_handling.1 stdTranscript 50 24 44 rfl rfl
      (Or.inr (by decide))
  · exact c8_codon_error_handling.2.1 ncTranscript 1 (by decide)
  · exact c8_codon_error_handling.2.2.1 unkTranscript 1 rfl
  · exact c8_codon_error_handling.2.2.2.1 ncTranscript (by decide)
  · exact c8_codon_error_handling.2.2.2.2.1 shortTranscript 4 "length != 3"
      rfl rfl rfl
  · exact c8_codon_error_handling.2.2.2.2.2.1 shortMinusTranscript 5
      "length != 3" rfl rfl rfl
  · exact c8_codon_error_handling.2.2.2.2.2.2.1 shortTranscript 5
      "length != 3" rfl rfl rfl
  · exact c8_codon_error_handling.2.2.2.2.2.2.2.1 shortMinusTranscript 4
      "length != 3" rfl rfl rfl
  · exact c8_codon_error_handling.2.2.2.2.2.2.2.2 unkTranscript rfl

/-- Source `GtfRecord::add_to_exon` always widens the plain interval to the
union, whatever the feature kind does to the coding fields. -/
theorem add_to_exon_interval (r : GtfRecord) (e : Exon) :
    (r.add_to_exon e).start = min e.start r.start ∧
    (r.add_to_exon e).end_ = max e.end_ r.end_ := by
  unfold GtfRecord.add_to_exon
  cases r.feature <;> cases r.strand <;> dsimp only <;> split <;> simp

/-- Source `From<GtfRecord> for Exon` keeps the record's interval. -/
theorem to_exon_interval (r : GtfRecord) :
    r.to_exon.start = r.start ∧ r.to_exon.end_ = r.end_ := by
  unfold GtfRecord.to_exon
  cases r.feature <;> simp

/-- Membership through one insertion step of the sort. -/
theorem mem_insertByStart {r x : GtfRecord} {l : List GtfRecord} :
    x ∈ insertByStart r l ↔ x = r ∨ x ∈ l := by
  induction l with
  | nil => simp [insertByStart]
  | cons a rest ih =>
    unfold insertByStart
    split
    · simp
    · simp only [List.mem_cons, ih]
      tauto

/-- The sort permutes, so membership is preserved. -/
theorem mem_sortByStart {x : GtfRecord} {l : List GtfRecord} :
    x ∈ sortByStart l ↔ x ∈ l := by
  induction l with
  | nil => simp [sortByStart]
  | cons a rest ih =>
    show x ∈ insertByStart a (sortByStart rest) ↔ _
    rw [mem_insertByStart, ih]
    simp

/-- The merge loop refines the spec-worded chain merge: on records whose
`end + 1` fits in u32 it never panics, and the intervals of the emitted
exons are exactly the spec's maximal-chain intervals. -/
theorem mergeLoop_spec (l : List GtfRecord) (acc : Exon)
    (hl : ∀ r ∈ l, r.end_ + 1 < u32size) (hacc : acc.end_ + 1 < u32size) :
    ∃ es, mergeLoop acc l = some es ∧
      es.map (fun e => (e.start, e.end_)) =
        specMergeChains (acc.start, acc.end_)
          (l.map (fun r => (r.start, r.end_))) := by
  induction l generalizing acc with
  | nil => exact ⟨[acc], rfl, rfl⟩
  | cons r rest ih =>
    have hr : r.end_ + 1 < u32size := hl r (by simp)
    have hrest : ∀ x ∈ rest, x.end_ + 1 < u32size :=
      fun x hx => hl x (by simp [hx])
    have hadd : addChk acc.end_ 1 = some (acc.end_ + 1) := by
      unfold addChk
      rw [if_pos hacc]
    unfold mergeLoop
    rw [hadd]
    simp only [Option.some_bind]
    by_cases hcond : r.start ≤ acc.end_ + 1
    · rw [if_pos hcond]
      have hint := add_to_exon_interval r acc
      have hacc2 : (r.add_to_exon acc).end_ + 1 < u32size := by
        rw [hint.2]
        omega
      obtain ⟨es, hes, hmap⟩ := ih (r.add_to_exon acc) hrest hacc2
      refine ⟨es, hes, ?_⟩
      rw [hmap, hint.1, hint.2]
      simp only [List.map_cons, specMergeChains, if_pos hcond]
    · rw [if_neg hcond]
      have hint := to_exon_interval r
      have hacc2 : r.to_exon.end_ + 1 < u32size := by
        rw [hint.2]
        exact hr
      obtain ⟨es, hes, hmap⟩ := ih r.to_exon hrest hacc2
      refine ⟨acc :: es, by rw [hes]; rfl, ?_⟩
      rw [List.map_cons, hmap, hint.1, hint.2]
      simp only [List.map_cons, specMergeChains, if_neg hcond]

/-- Claim C7: the grouper sorts the records ascending by start and merges
each following record into the accumulator while its start is at most the
accumulator's end plus one, widening `[start, end]` to the union, so the
emitted exon intervals are exactly one per maximal chain of
adjacent/overlapping fragments (the spec-worded `specGroupIntervals`); in
particular the book-ended fragments `(10,20)` and `(21,30)` merge into the
single Exon `(10,30)`. -/
theorem c7_grouper_refines_spec (rs : List GtfRecord)
    (h : ∀ r ∈ rs, r.end_ + 1 < u32size) :
    (∃ es, GtfRecordsGroup.exons rs = some es ∧
      es.map (fun e => (e.start, e.end_)) =
        specGroupIntervals
          ((sortByStart rs).map (fun r => (r.start, r.end_)))) ∧
    GtfRecordsGroup.exons [rec1020, rec2130] =
      some [⟨10, 30, none, none, Frame.None⟩] := by
  constructor
  · have hsorted : ∀ r ∈ sortByStart rs, r.end_ + 1 < u32size :=
      fun r hr => h r (mem_sortByStart.mp hr)
    unfold GtfRecordsGroup.exons specGroupIntervals
    cases hs : sortByStart rs with
    | nil => exact ⟨[], rfl, rfl⟩
    | cons r rest =>
      rw [hs] at hsorted
      have hint := to_exon_interval r
      obtain ⟨es, hes, hmap⟩ := mergeLoop_spec rest r.to_exon
        (fun x hx => hsorted x (by simp [hx]))
        (by rw [hint.2]; exact hsorted r (by simp))
      refine ⟨es, hes, ?_⟩
      rw [hmap, hint.1, hint.2]
      simp only [List.map_cons]
  · rfl

/-- Witness for C7 on the two book-ended records. -/
theorem c7_grouper_refines_spec_witness :
    (∃ es, GtfRecordsGroup.exons [rec1020, rec2130] = some es ∧
      es.map (fun e => (e.start, e.end_)) =
        specGroupIntervals
          ((sortByStart [rec1020, rec2130]).map
            (fun r => (r.start, r.end_)))) ∧
    GtfRecordsGroup.exons [rec1020, rec2130] =
      some [⟨10, 30, none, none, Frame.None⟩] :=
  c7_grouper_refines_spec [rec1020, rec2130] (by decide)

end Atg
